import Mathlib

/-!
Verification of the ithaca-weather-dashboard ingestion-and-query pipeline.

The Python sources (`src/scraper.py`, `src/dashboard.py`) are shallowly
embedded below.  Machine data is modelled as follows: JSON payloads become
the inductive type `Json` (numbers as rationals; the serializer is faithful
for integral numbers and printable-ASCII strings -- floating-point `repr`
round-tripping and unicode escaping are outside the scope of this
embedding); `datetime` instants become natural numbers counting seconds;
SQLite rows of the `weather_data` table become the structure `WeatherRow`;
the database becomes a list of rows in insertion order.
-/

/-- A JSON value, as produced by `response.json()` in `scraper.py`.
Numbers are rationals; the claims exercised here use integral values. -/
inductive Json where
  | null : Json
  | bool (b : Bool) : Json
  | num (q : ℚ) : Json
  | str (s : String) : Json
  | arr (xs : List Json) : Json
  | obj (kvs : List (String × Json)) : Json

/-- The double-quote character (written via its code point). -/
def quoteC : Char := Char.ofNat 34

/-- The backslash character (written via its code point). -/
def backslashC : Char := Char.ofNat 92

/-- The opening-brace character (written via its code point). -/
def lbraceC : Char := Char.ofNat 123

/-- The closing-brace character (written via its code point). -/
def rbraceC : Char := Char.ofNat 125

/-- The character for decimal digit `d` (`0x30 + d`). -/
def digitChar (d : Nat) : Char := Char.ofNat (48 + d)

/-- Decimal digits of `n`, most significant first; `fuel` bounds the
recursion depth (any `fuel > n` is enough). -/
def natDigitsAux : Nat → Nat → List Char
  | 0, _ => []
  | fuel + 1, n =>
    if n < 10 then [digitChar n]
    else natDigitsAux fuel (n / 10) ++ [digitChar (n % 10)]

/-- Decimal digits of `n`, most significant first. -/
def natDigits (n : Nat) : List Char := natDigitsAux (n + 1) n

/-- Decimal rendering of an integer, as `json.dumps` prints it. -/
def printInt (n : Int) : List Char :=
  if n < 0 then '-' :: natDigits n.natAbs else natDigits n.natAbs

/-- JSON string escaping: `json.dumps` escapes the double quote and the
backslash.  (Control characters and non-ASCII text, which Python would
`\u`-escape, are outside the scope of this embedding.) -/
def escChar (c : Char) : List Char :=
  if c = quoteC ∨ c = backslashC then [backslashC, c] else [c]

/-- Escape every character of a string body. -/
def escapeStr : List Char → List Char
  | [] => []
  | c :: cs => escChar c ++ escapeStr cs

/-- A quoted, escaped JSON string literal. -/
def printStr (s : String) : List Char := quoteC :: (escapeStr s.data ++ [quoteC])

mutual

/-- Serialization of a `Json` value, following Python's `json.dumps`
default format (separators `", "` and `": "`).  For a non-integral
rational (standing in for a float, outside this embedding's scope) only
the numerator is printed; every theorem below excludes that case via
`Json.jsonOK`. -/
def Json.printJson : Json → List Char
  | .null => "null".data
  | .bool true => "true".data
  | .bool false => "false".data
  | .num q => printInt q.num
  | .str s => printStr s
  | .arr xs => '[' :: (Json.printArr xs ++ [']'])
  | .obj kvs => lbraceC :: (Json.printObj kvs ++ [rbraceC])

/-- Serialization of the elements of a JSON array, `", "`-separated. -/
def Json.printArr : List Json → List Char
  | [] => []
  | [x] => Json.printJson x
  | x :: y :: ys => Json.printJson x ++ ',' :: ' ' :: Json.printArr (y :: ys)

/-- Serialization of the members of a JSON object, `", "`-separated,
each member printed as `"key": value`. -/
def Json.printObj : List (String × Json) → List Char
  | [] => []
  | [(k, v)] => printStr k ++ ':' :: ' ' :: Json.printJson v
  | (k, v) :: kv :: rest =>
      printStr k ++ ':' :: ' ' :: Json.printJson v ++ ',' :: ' ' :: Json.printObj (kv :: rest)

end

/-- `json.dumps`, at the `String` boundary. -/
def dumps (j : Json) : String := String.mk j.printJson

/-- Characters this embedding serializes exactly as Python does:
printable ASCII. -/
def charOK (c : Char) : Bool := 32 ≤ c.toNat && c.toNat ≤ 126

/-- Strings this embedding serializes exactly as Python does. -/
def strOK (s : String) : Bool := s.data.all charOK

mutual

/-- The fragment of `Json` on which this embedding's serializer agrees
with Python's `json.dumps`: integral numbers, printable-ASCII strings. -/
def Json.jsonOK : Json → Bool
  | .null => true
  | .bool _ => true
  | .num q => q.den = 1
  | .str s => strOK s
  | .arr xs => Json.listOK xs
  | .obj kvs => Json.objOK kvs

/-- `Json.jsonOK` on every element of an array. -/
def Json.listOK : List Json → Bool
  | [] => true
  | x :: xs => Json.jsonOK x && Json.listOK xs

/-- `Json.jsonOK` on every member of an object (keys included). -/
def Json.objOK : List (String × Json) → Bool
  | [] => true
  | (k, v) :: rest => strOK k && Json.jsonOK v && Json.objOK rest

end

mutual

/-- Node count of a `Json` value (a fuel bound for the parser). -/
def Json.sizeJ : Json → Nat
  | .arr xs => 1 + Json.sizeA xs
  | .obj kvs => 1 + Json.sizeO kvs
  | _ => 1

/-- Accumulated node count of array elements. -/
def Json.sizeA : List Json → Nat
  | [] => 0
  | x :: xs => 1 + Json.sizeJ x + Json.sizeA xs

/-- Accumulated node count of object members. -/
def Json.sizeO : List (String × Json) → Nat
  | [] => 0
  | kv :: rest => 1 + Json.sizeJ kv.2 + Json.sizeO rest

end

/-- Numeric value of a digit list, most significant first. -/
def digitsVal (ds : List Char) : Nat :=
  ds.foldl (fun a c => 10 * a + (c.toNat - 48)) 0

/-- Parse a maximal nonempty run of decimal digits. -/
def parseNatNum (cs : List Char) : Option (Nat × List Char) :=
  let ds := cs.takeWhile (fun c => c.isDigit)
  let rest := cs.dropWhile (fun c => c.isDigit)
  if ds.isEmpty then none else some (digitsVal ds, rest)

/-- Parse a JSON string body (after the opening quote), handling the two
escapes the serializer emits. -/
def parseStrAux : List Char → Option (List Char × List Char)
  | [] => none
  | c :: cs =>
    if c = quoteC then some ([], cs)
    else if c = backslashC then
      match cs with
      | [] => none
      | c2 :: cs2 =>
        if c2 = quoteC ∨ c2 = backslashC then
          (parseStrAux cs2).map (fun p => (c2 :: p.1, p.2))
        else none
    else (parseStrAux cs).map (fun p => (c :: p.1, p.2))

mutual

/-- Fuel-indexed JSON parser, modelling `json.loads` on the canonical
output of `dumps`. -/
def parseJson : Nat → List Char → Option (Json × List Char)
  | 0, _ => none
  | _ + 1, [] => none
  | fuel + 1, c :: cs =>
    if c = 'n' then
      match cs with
      | 'u' :: 'l' :: 'l' :: rest => some (.null, rest)
      | _ => none
    else if c = 't' then
      match cs with
      | 'r' :: 'u' :: 'e' :: rest => some (.bool true, rest)
      | _ => none
    else if c = 'f' then
      match cs with
      | 'a' :: 'l' :: 's' :: 'e' :: rest => some (.bool false, rest)
      | _ => none
    else if c = quoteC then
      (parseStrAux cs).map (fun p => (.str (String.mk p.1), p.2))
    else if c = '[' then
      if cs.headD ' ' = ']' then some (.arr [], cs.tail)
      else (parseArr fuel cs).map (fun p => (.arr p.1, p.2))
    else if c = lbraceC then
      if cs.headD ' ' = rbraceC then some (.obj [], cs.tail)
      else (parseObj fuel cs).map (fun p => (.obj p.1, p.2))
    else if c = '-' then
      (parseNatNum cs).map (fun p => (.num (-(p.1 : ℚ)), p.2))
    else
      (parseNatNum (c :: cs)).map (fun p => (.num ((p.1 : ℚ)), p.2))

/-- Parse the nonempty element list of a JSON array, consuming the
closing bracket. -/
def parseArr : Nat → List Char → Option (List Json × List Char)
  | 0, _ => none
  | fuel + 1, cs =>
    match parseJson fuel cs with
    | none => none
    | some (x, r) =>
      match r with
      | ']' :: r2 => some ([x], r2)
      | ',' :: ' ' :: r2 => (parseArr fuel r2).map (fun p => (x :: p.1, p.2))
      | _ => none

/-- Parse the nonempty member list of a JSON object, consuming the
closing brace. -/
def parseObj : Nat → List Char → Option (List (String × Json) × List Char)
  | 0, _ => none
  | fuel + 1, cs =>
    match cs with
    | c :: cs1 =>
      if c = quoteC then
        match parseStrAux cs1 with
        | none => none
        | some (k, r1) =>
          match r1 with
          | ':' :: ' ' :: r2 =>
            match parseJson fuel r2 with
            | none => none
            | some (v, r3) =>
              if r3.headD ' ' = rbraceC then some ([(String.mk k, v)], r3.tail)
              else
                match r3 with
                | ',' :: ' ' :: r4 =>
                  (parseObj fuel r4).map (fun p => ((String.mk k, v) :: p.1, p.2))
                | _ => none
          | _ => none
      else none
    | [] => none

end

/-- `json.loads`, at the `String` boundary: succeeds only when the whole
input is consumed. -/
def loads (s : String) : Option Json :=
  match parseJson (s.data.length + 1) s.data with
  | some (j, []) => some j
  | _ => none

/-- `true` when the list does not start with a decimal digit (so a digit
run just before it cannot be extended). -/
def headNotDigit : List Char → Bool
  | [] => true
  | c :: _ => !c.isDigit

theorem digitChar_isDigit {d : Nat} (h : d < 10) : (digitChar d).isDigit = true := by
  interval_cases d <;> decide

theorem digitChar_toNat {d : Nat} (h : d < 10) : (digitChar d).toNat = 48 + d := by
  interval_cases d <;> decide

theorem natDigitsAux_isDigit {fuel n : Nat} (h : n < fuel) :
    ∀ c ∈ natDigitsAux fuel n, c.isDigit = true := by
  induction fuel generalizing n with
  | zero => omega
  | succ f ih =>
    intro c hc
    rw [natDigitsAux] at hc
    by_cases h10 : n < 10
    · rw [if_pos h10] at hc
      simp at hc
      subst hc
      exact digitChar_isDigit h10
    · rw [if_neg h10] at hc
      rcases List.mem_append.1 hc with hm | hm
      · exact ih (by omega) c hm
      · simp at hm
        subst hm
        exact digitChar_isDigit (Nat.mod_lt _ (by omega))

theorem natDigitsAux_ne_nil {fuel n : Nat} (h : n < fuel) :
    natDigitsAux fuel n ≠ [] := by
  cases fuel with
  | zero => omega
  | succ f =>
    rw [natDigitsAux]
    by_cases h10 : n < 10
    · rw [if_pos h10]; simp
    · rw [if_neg h10]; simp

theorem digitsVal_append_single (ds : List Char) (c : Char) :
    digitsVal (ds ++ [c]) = 10 * digitsVal ds + (c.toNat - 48) := by
  unfold digitsVal
  rw [List.foldl_append]
  rfl

theorem natDigitsAux_val {fuel n : Nat} (h : n < fuel) :
    digitsVal (natDigitsAux fuel n) = n := by
  induction fuel generalizing n with
  | zero => omega
  | succ f ih =>
    rw [natDigitsAux]
    by_cases h10 : n < 10
    · rw [if_pos h10]
      show 10 * 0 + ((digitChar n).toNat - 48) = n
      rw [digitChar_toNat h10]
      omega
    · rw [if_neg h10]
      rw [digitsVal_append_single]
      rw [ih (by omega)]
      rw [digitChar_toNat (Nat.mod_lt _ (by omega))]
      omega

theorem natDigits_isDigit (n : Nat) : ∀ c ∈ natDigits n, c.isDigit = true :=
  natDigitsAux_isDigit (Nat.lt_succ_self n)

theorem natDigits_ne_nil (n : Nat) : natDigits n ≠ [] :=
  natDigitsAux_ne_nil (Nat.lt_succ_self n)

theorem natDigits_val (n : Nat) : digitsVal (natDigits n) = n :=
  natDigitsAux_val (Nat.lt_succ_self n)

theorem takeWhile_all_append {p : Char → Bool} {ds rest : List Char}
    (hall : ∀ c ∈ ds, p c = true) (hrest : rest = [] ∨ ∃ c t, rest = c :: t ∧ p c = false) :
    (ds ++ rest).takeWhile p = ds ∧ (ds ++ rest).dropWhile p = rest := by
  induction ds with
  | nil =>
    rcases hrest with h | ⟨c, t, rfl, hc⟩
    · subst h; simp
    · simp [List.takeWhile, List.dropWhile, hc]
  | cons d ds ih =>
    have hd : p d = true := hall d (by simp)
    have ih2 := ih (fun c hc => hall c (by simp [hc]))
    simp [List.takeWhile, List.dropWhile, hd, ih2.1, ih2.2]

theorem parseNatNum_digits {ds rest : List Char} (hne : ds ≠ [])
    (hall : ∀ c ∈ ds, c.isDigit = true) (hrest : headNotDigit rest = true) :
    parseNatNum (ds ++ rest) = some (digitsVal ds, rest) := by
  have hrest' : rest = [] ∨ ∃ c t, rest = c :: t ∧ c.isDigit = false := by
    cases rest with
    | nil => exact Or.inl rfl
    | cons c t =>
      refine Or.inr ⟨c, t, rfl, ?_⟩
      simpa [headNotDigit] using hrest
  have h := takeWhile_all_append (p := fun c => c.isDigit) hall hrest'
  rw [parseNatNum]
  simp only [h.1, h.2]
  rw [if_neg (by simpa using hne)]

theorem parseNatNum_natDigits (n : Nat) {rest : List Char}
    (hrest : headNotDigit rest = true) :
    parseNatNum (natDigits n ++ rest) = some (n, rest) := by
  rw [parseNatNum_digits (natDigits_ne_nil n) (natDigits_isDigit n) hrest]
  rw [natDigits_val]

theorem isDigit_ne {c d : Char} (h : c.isDigit = true) (hd : d.isDigit = false) : c ≠ d := by
  intro he
  subst he
  rw [h] at hd
  cases hd

theorem parseStrAux_escape (s rest : List Char) :
    parseStrAux (escapeStr s ++ (quoteC :: rest)) = some (s, rest) := by
  induction s with
  | nil =>
    rw [parseStrAux.eq_def]
    simp [escapeStr]
  | cons c t ih =>
    by_cases hc : c = quoteC ∨ c = backslashC
    · have hbq : ¬(backslashC = quoteC) := by decide
      simp only [escapeStr, escChar, if_pos hc, List.cons_append, List.append_assoc]
      rw [parseStrAux.eq_def]
      simp only [if_neg hbq, if_pos rfl]
      simp [if_pos hc, ih]
    · push_neg at hc
      simp only [escapeStr, escChar, if_neg (by tauto : ¬(c = quoteC ∨ c = backslashC)),
        List.cons_append, List.append_assoc]
      rw [parseStrAux.eq_def]
      simp only [if_neg hc.1, if_neg hc.2]
      simp [ih]

theorem printInt_ne_nil (n : Int) : printInt n ≠ [] := by
  rw [printInt]
  by_cases h : n < 0
  · rw [if_pos h]; simp
  · rw [if_neg h]; exact natDigits_ne_nil _

theorem printJson_head (j : Json) :
    ∃ c t, Json.printJson j = c :: t ∧ c ≠ ']' ∧ c ≠ rbraceC := by
  cases j with
  | null => exact ⟨'n', _, rfl, by decide, by decide⟩
  | bool b =>
    cases b
    · exact ⟨'f', _, rfl, by decide, by decide⟩
    · exact ⟨'t', _, rfl, by decide, by decide⟩
  | num q =>
    show ∃ c t, printInt q.num = c :: t ∧ _
    rw [printInt]
    by_cases h : q.num < 0
    · rw [if_pos h]; exact ⟨'-', _, rfl, by decide, by decide⟩
    · rw [if_neg h]
      cases hd : natDigits q.num.natAbs with
      | nil => exact absurd hd (natDigits_ne_nil _)
      | cons c t =>
        have hc : c.isDigit = true := natDigits_isDigit _ c (by rw [hd]; simp)
        exact ⟨c, t, rfl, isDigit_ne hc (by decide), isDigit_ne hc (by decide)⟩
  | str s => exact ⟨quoteC, _, rfl, by decide, by decide⟩
  | arr xs => exact ⟨'[', _, rfl, by decide, by decide⟩
  | obj kvs => exact ⟨lbraceC, _, rfl, by decide, by decide⟩

theorem printStr_length (s : String) : 2 ≤ (printStr s).length := by
  rw [printStr]
  simp

mutual

theorem Json.sizeJ_le (j : Json) : Json.sizeJ j ≤ (Json.printJson j).length := by
  cases j with
  | null => decide
  | bool b => cases b <;> decide
  | num q =>
    show Json.sizeJ (.num q) ≤ (printInt q.num).length
    have h := printInt_ne_nil q.num
    have : 0 < (printInt q.num).length := List.length_pos.2 h
    simp [Json.sizeJ]
    omega
  | str s =>
    have := printStr_length s
    show Json.sizeJ (.str s) ≤ (printStr s).length
    simp [Json.sizeJ]
    omega
  | arr xs =>
    have h := Json.sizeA_le xs
    simp [Json.sizeJ, Json.printJson]
    omega
  | obj kvs =>
    have h := Json.sizeO_le kvs
    simp [Json.sizeJ, Json.printJson]
    omega

theorem Json.sizeA_le (xs : List Json) : Json.sizeA xs ≤ (Json.printArr xs).length + 1 := by
  match xs with
  | [] => simp [Json.sizeA, Json.printArr]
  | [x] =>
    have h := Json.sizeJ_le x
    simp [Json.sizeA, Json.printArr]
    omega
  | x :: y :: ys =>
    have h1 := Json.sizeJ_le x
    have h2 := Json.sizeA_le (y :: ys)
    simp [Json.sizeA, Json.printArr] at h2 ⊢
    omega

theorem Json.sizeO_le (kvs : List (String × Json)) :
    Json.sizeO kvs ≤ (Json.printObj kvs).length + 1 := by
  match kvs with
  | [] => simp [Json.sizeO, Json.printObj]
  | [(k, v)] =>
    have h := Json.sizeJ_le v
    have hk := printStr_length k
    simp [Json.sizeO, Json.printObj]
    omega
  | (k, v) :: kv :: rest =>
    have h1 := Json.sizeJ_le v
    have h2 := Json.sizeO_le (kv :: rest)
    have hk := printStr_length k
    simp [Json.sizeO, Json.printObj] at h2 ⊢
    omega

end

theorem printArr_head (x : Json) (xs : List Json) :
    ∃ c t, Json.printArr (x :: xs) = c :: t ∧ c ≠ ']' ∧ c ≠ rbraceC := by
  obtain ⟨c, t, hx, h1, h2⟩ := printJson_head x
  cases xs with
  | nil => exact ⟨c, t, by simpa [Json.printArr] using hx, h1, h2⟩
  | cons y ys =>
    refine ⟨c, t ++ ',' :: ' ' :: Json.printArr (y :: ys), ?_, h1, h2⟩
    simp [Json.printArr, hx]

theorem printObj_head (k : String) (v : Json) (kvs : List (String × Json)) :
    ∃ t, Json.printObj ((k, v) :: kvs) = quoteC :: t := by
  cases kvs with
  | nil => exact ⟨_, rfl⟩
  | cons kv rest => exact ⟨_, rfl⟩

theorem one_le_sizeJ (j : Json) : 1 ≤ Json.sizeJ j := by
  cases j <;> simp [Json.sizeJ]

theorem String.mk_data (s : String) : String.mk s.data = s := rfl

theorem listOK_cons {x : Json} {xs : List Json} :
    Json.listOK (x :: xs) = true ↔ Json.jsonOK x = true ∧ Json.listOK xs = true := by
  simp [Json.listOK, Bool.and_eq_true]

theorem objOK_cons {k : String} {v : Json} {kvs : List (String × Json)} :
    Json.objOK ((k, v) :: kvs) = true ↔
      strOK k = true ∧ Json.jsonOK v = true ∧ Json.objOK kvs = true := by
  simp [Json.objOK, Bool.and_eq_true, and_assoc]

theorem parseJson_step (f : Nat) (c : Char) (cs : List Char) :
    parseJson (f + 1) (c :: cs) =
    (if c = 'n' then
      match cs with
      | 'u' :: 'l' :: 'l' :: rest => some (.null, rest)
      | _ => none
    else if c = 't' then
      match cs with
      | 'r' :: 'u' :: 'e' :: rest => some (.bool true, rest)
      | _ => none
    else if c = 'f' then
      match cs with
      | 'a' :: 'l' :: 's' :: 'e' :: rest => some (.bool false, rest)
      | _ => none
    else if c = quoteC then
      (parseStrAux cs).map (fun p => (.str (String.mk p.1), p.2))
    else if c = '[' then
      if cs.headD ' ' = ']' then some (.arr [], cs.tail)
      else (parseArr f cs).map (fun p => (.arr p.1, p.2))
    else if c = lbraceC then
      if cs.headD ' ' = rbraceC then some (.obj [], cs.tail)
      else (parseObj f cs).map (fun p => (.obj p.1, p.2))
    else if c = '-' then
      (parseNatNum cs).map (fun p => (.num (-(p.1 : ℚ)), p.2))
    else
      (parseNatNum (c :: cs)).map (fun p => (.num ((p.1 : ℚ)), p.2))) := rfl

theorem parseArr_step (f : Nat) (cs : List Char) :
    parseArr (f + 1) cs =
    (match parseJson f cs with
    | none => none
    | some (x, r) =>
      match r with
      | ']' :: r2 => some ([x], r2)
      | ',' :: ' ' :: r2 => (parseArr f r2).map (fun p => (x :: p.1, p.2))
      | _ => none) := rfl

theorem parseObj_step (f : Nat) (c : Char) (cs1 : List Char) :
    parseObj (f + 1) (c :: cs1) =
    (if c = quoteC then
      match parseStrAux cs1 with
      | none => none
      | some (k, r1) =>
        match r1 with
        | ':' :: ' ' :: r2 =>
          match parseJson f r2 with
          | none => none
          | some (v, r3) =>
            if r3.headD ' ' = rbraceC then some ([(String.mk k, v)], r3.tail)
            else
              match r3 with
              | ',' :: ' ' :: r4 =>
                (parseObj f r4).map (fun p => ((String.mk k, v) :: p.1, p.2))
              | _ => none
        | _ => none
    else none) := rfl

theorem parse_print_roundtrip : ∀ fuel : Nat,
    (∀ j rest, Json.jsonOK j = true → Json.sizeJ j ≤ fuel → headNotDigit rest = true →
      parseJson fuel (Json.printJson j ++ rest) = some (j, rest)) ∧
    (∀ xs rest, xs ≠ [] → Json.listOK xs = true → Json.sizeA xs ≤ fuel →
      parseArr fuel (Json.printArr xs ++ (']' :: rest)) = some (xs, rest)) ∧
    (∀ kvs rest, kvs ≠ [] → Json.objOK kvs = true → Json.sizeO kvs ≤ fuel →
      parseObj fuel (Json.printObj kvs ++ (rbraceC :: rest)) = some (kvs, rest)) := by
  intro fuel
  induction fuel with
  | zero =>
    refine ⟨fun j rest _ hsz _ => absurd hsz (by have := one_le_sizeJ j; omega), ?_, ?_⟩
    · intro xs rest hne _ hsz
      cases xs with
      | nil => exact absurd rfl hne
      | cons x xs =>
        have := one_le_sizeJ x
        simp [Json.sizeA] at hsz
    · intro kvs rest hne _ hsz
      cases kvs with
      | nil => exact absurd rfl hne
      | cons kv kvs =>
        have := one_le_sizeJ kv.2
        simp [Json.sizeO] at hsz
  | succ f ih =>
    obtain ⟨ih1, ih2, ih3⟩ := ih
    refine ⟨?_, ?_, ?_⟩
    · -- parseJson round-trip
      intro j rest hOK hsz hrest
      cases j with
      | null =>
        show parseJson (f + 1) ('n' :: 'u' :: 'l' :: 'l' :: rest) = _
        rw [parseJson_step, if_pos rfl]
        rfl
      | bool b =>
        cases b
        · show parseJson (f + 1) ('f' :: 'a' :: 'l' :: 's' :: 'e' :: rest) = _
          rw [parseJson_step, if_neg (by decide), if_neg (by decide), if_pos rfl]
          rfl
        · show parseJson (f + 1) ('t' :: 'r' :: 'u' :: 'e' :: rest) = _
          rw [parseJson_step, if_neg (by decide), if_pos rfl]
          rfl
      | num q =>
        have hden : q.den = 1 := by
          have h := hOK
          simp [Json.jsonOK] at h
          exact h
        have hq : (q.num : ℚ) = q := Rat.coe_int_num_of_den_eq_one hden
        show parseJson (f + 1) (printInt q.num ++ rest) = _
        by_cases hneg : q.num < 0
        · rw [printInt, if_pos hneg]
          show parseJson (f + 1) ('-' :: (natDigits q.num.natAbs ++ rest)) = _
          rw [parseJson_step, if_neg (by decide), if_neg (by decide), if_neg (by decide),
            if_neg (by decide), if_neg (by decide), if_neg (by decide), if_pos rfl]
          rw [parseNatNum_natDigits _ hrest]
          have h1 : ((q.num.natAbs : ℤ)) = -q.num := by omega
          have h2 : ((q.num.natAbs : ℚ)) = -(q.num : ℚ) := by
            rw [← @Int.cast_natCast ℚ _ q.num.natAbs, h1, Int.cast_neg]
          simp [h2, hq]
        · rw [printInt, if_neg hneg]
          cases hd : natDigits q.num.natAbs with
          | nil => exact absurd hd (natDigits_ne_nil _)
          | cons c t =>
            have hcd : c.isDigit = true := natDigits_isDigit _ c (by rw [hd]; simp)
            show parseJson (f + 1) ((c :: t) ++ rest) = _
            rw [List.cons_append, parseJson_step,
              if_neg (isDigit_ne hcd (by decide)), if_neg (isDigit_ne hcd (by decide)),
              if_neg (isDigit_ne hcd (by decide)), if_neg (isDigit_ne hcd (by decide)),
              if_neg (isDigit_ne hcd (by decide)), if_neg (isDigit_ne hcd (by decide)),
              if_neg (isDigit_ne hcd (by decide))]
            have he : c :: (t ++ rest) = natDigits q.num.natAbs ++ rest := by
              rw [hd]
              rfl
            rw [he, parseNatNum_natDigits _ hrest]
            have h1 : ((q.num.natAbs : ℤ)) = q.num := by omega
            have h2 : ((q.num.natAbs : ℚ)) = (q.num : ℚ) := by
              rw [← @Int.cast_natCast ℚ _ q.num.natAbs, h1]
            simp [h2, hq]
      | str s =>
        show parseJson (f + 1) (printStr s ++ rest) = _
        rw [printStr]
        have hassoc : (quoteC :: (escapeStr s.data ++ [quoteC])) ++ rest =
            quoteC :: (escapeStr s.data ++ (quoteC :: rest)) := by simp
        rw [hassoc, parseJson_step]
        rw [if_neg (by decide), if_neg (by decide), if_neg (by decide), if_pos rfl]
        rw [parseStrAux_escape]
        simp [String.mk_data]
      | arr xs =>
        cases xs with
        | nil =>
          show parseJson (f + 1) ('[' :: ']' :: rest) = _
          rw [parseJson_step]
          rw [if_neg (by decide), if_neg (by decide), if_neg (by decide), if_neg (by decide),
            if_pos rfl]
          rfl
        | cons x xs =>
          show parseJson (f + 1) (('[' :: (Json.printArr (x :: xs) ++ [']'])) ++ rest) = _
          have hassoc : ('[' :: (Json.printArr (x :: xs) ++ [']'])) ++ rest =
              '[' :: (Json.printArr (x :: xs) ++ (']' :: rest)) := by simp
          rw [hassoc, parseJson_step]
          rw [if_neg (by decide), if_neg (by decide), if_neg (by decide), if_neg (by decide),
            if_pos rfl]
          obtain ⟨c0, t0, hh, hne1, _⟩ := printArr_head x xs
          rw [hh]
          rw [if_neg (by simpa using hne1)]
          have hOK' : Json.listOK (x :: xs) = true := by simpa [Json.jsonOK] using hOK
          have hsz' : Json.sizeA (x :: xs) ≤ f := by
            simp [Json.sizeJ] at hsz
            omega
          rw [← hh, ih2 (x :: xs) rest (by simp) hOK' hsz']
          rfl
      | obj kvs =>
        cases kvs with
        | nil =>
          show parseJson (f + 1) (lbraceC :: rbraceC :: rest) = _
          rw [parseJson_step]
          rw [if_neg (by decide), if_neg (by decide), if_neg (by decide), if_neg (by decide),
            if_neg (by decide), if_pos rfl]
          rfl
        | cons kv kvs =>
          show parseJson (f + 1) ((lbraceC :: (Json.printObj (kv :: kvs) ++ [rbraceC])) ++ rest) = _
          have hassoc : (lbraceC :: (Json.printObj (kv :: kvs) ++ [rbraceC])) ++ rest =
              lbraceC :: (Json.printObj (kv :: kvs) ++ (rbraceC :: rest)) := by simp
          rw [hassoc, parseJson_step]
          rw [if_neg (by decide), if_neg (by decide), if_neg (by decide), if_neg (by decide),
            if_neg (by decide), if_pos rfl]
          obtain ⟨t0, hh⟩ := printObj_head kv.1 kv.2 kvs
          rw [show (kv.1, kv.2) = kv from rfl] at hh
          rw [hh]
          rw [if_neg (by simpa using (by decide : ¬(quoteC = rbraceC)))]
          have hOK' : Json.objOK (kv :: kvs) = true := by simpa [Json.jsonOK] using hOK
          have hsz' : Json.sizeO (kv :: kvs) ≤ f := by
            simp [Json.sizeJ] at hsz
            omega
          rw [← hh, ih3 (kv :: kvs) rest (by simp) hOK' hsz']
          rfl
    · -- parseArr round-trip
      intro xs rest hne hOK hsz
      cases xs with
      | nil => exact absurd rfl hne
      | cons x xs =>
        have hOKx : Json.jsonOK x = true := (listOK_cons.1 hOK).1
        cases xs with
        | nil =>
          show parseArr (f + 1) (Json.printJson x ++ (']' :: rest)) = _
          rw [parseArr_step]
          rw [ih1 x (']' :: rest) hOKx (by simp [Json.sizeA] at hsz; omega)
            (by simp [headNotDigit])]
          rfl
        | cons y ys =>
          show parseArr (f + 1)
            ((Json.printJson x ++ ',' :: ' ' :: Json.printArr (y :: ys)) ++ (']' :: rest)) = _
          have hassoc :
              (Json.printJson x ++ ',' :: ' ' :: Json.printArr (y :: ys)) ++ (']' :: rest) =
              Json.printJson x ++ (',' :: ' ' :: (Json.printArr (y :: ys) ++ (']' :: rest))) := by
            simp
          rw [hassoc, parseArr_step]
          rw [ih1 x (',' :: ' ' :: (Json.printArr (y :: ys) ++ (']' :: rest))) hOKx
            (by simp [Json.sizeA] at hsz; omega) (by simp [headNotDigit])]
          have hOK' : Json.listOK (y :: ys) = true := (listOK_cons.1 hOK).2
          have hsz' : Json.sizeA (y :: ys) ≤ f := by
            have h1 := one_le_sizeJ x
            simp only [Json.sizeA] at hsz ⊢
            omega
          try simp only []
          rw [ih2 (y :: ys) rest (by simp) hOK' hsz']
          rfl
    · -- parseObj round-trip
      intro kvs rest hne hOK hsz
      cases kvs with
      | nil => exact absurd rfl hne
      | cons kv kvs =>
        obtain ⟨k, v⟩ := kv
        have hOKv : Json.jsonOK v = true := (objOK_cons.1 hOK).2.1
        cases kvs with
        | nil =>
          show parseObj (f + 1)
            ((printStr k ++ ':' :: ' ' :: Json.printJson v) ++ (rbraceC :: rest)) = _
          have hassoc :
              (printStr k ++ ':' :: ' ' :: Json.printJson v) ++ (rbraceC :: rest) =
              quoteC :: (escapeStr k.data ++
                (quoteC :: (':' :: ' ' :: (Json.printJson v ++ (rbraceC :: rest))))) := by
            rw [printStr]
            simp
          rw [hassoc, parseObj_step]
          rw [if_pos rfl]
          rw [parseStrAux_escape]
          try simp only []
          rw [ih1 v (rbraceC :: rest) hOKv (by simp [Json.sizeO] at hsz; omega)
            (by simp [headNotDigit]; decide)]
          simp [String.mk_data]
        | cons kv2 kvs2 =>
          show parseObj (f + 1)
            ((printStr k ++ ':' :: ' ' :: Json.printJson v ++
              ',' :: ' ' :: Json.printObj (kv2 :: kvs2)) ++ (rbraceC :: rest)) = _
          have hassoc :
              (printStr k ++ ':' :: ' ' :: Json.printJson v ++
                ',' :: ' ' :: Json.printObj (kv2 :: kvs2)) ++ (rbraceC :: rest) =
              quoteC :: (escapeStr k.data ++
                (quoteC :: (':' :: ' ' :: (Json.printJson v ++
                  (',' :: ' ' :: (Json.printObj (kv2 :: kvs2) ++ (rbraceC :: rest))))))) := by
            rw [printStr]
            simp
          rw [hassoc, parseObj_step]
          rw [if_pos rfl]
          rw [parseStrAux_escape]
          try simp only []
          rw [ih1 v (',' :: ' ' :: (Json.printObj (kv2 :: kvs2) ++ (rbraceC :: rest))) hOKv
            (by simp [Json.sizeO] at hsz; omega) (by simp [headNotDigit])]
          have hOK' : Json.objOK (kv2 :: kvs2) = true := (objOK_cons.1 hOK).2.2
          have hsz' : Json.sizeO (kv2 :: kvs2) ≤ f := by
            have h1 := one_le_sizeJ v
            simp only [Json.sizeO] at hsz ⊢
            omega
          try simp only []
          rw [if_neg (by simpa using (by decide : ¬(',' = rbraceC)))]
          try simp only []
          rw [ih3 (kv2 :: kvs2) rest (by simp) hOK' hsz']
          simp [String.mk_data]

theorem loads_dumps {j : Json} (h : Json.jsonOK j = true) : loads (dumps j) = some j := by
  have hsz : Json.sizeJ j ≤ (Json.printJson j).length + 1 := by
    have := Json.sizeJ_le j
    omega
  have hrt := (parse_print_roundtrip ((Json.printJson j).length + 1)).1 j [] h hsz
    (by simp [headNotDigit])
  rw [List.append_nil] at hrt
  show (match parseJson ((dumps j).data.length + 1) (dumps j).data with
    | some (j, []) => some j
    | _ => none) = some j
  have hdata : (dumps j).data = Json.printJson j := rfl
  rw [hdata, hrt]

/-- Python-level failure raised by attribute access on a non-dict value
(`dict.get` on something that is not a dict raises `AttributeError`). -/
inductive PyError where
  | attributeError : PyError

/-- `dict.get(key)`: the value under the first matching key, or `None`. -/
def dget (kvs : List (String × Json)) (k : String) : Option Json :=
  (kvs.find? (fun p => p.1 == k)).map (fun p => p.2)

/-- View a `Json` value as a dict, as Python's attribute access demands;
anything else raises `AttributeError`. -/
def asObj : Json → Except PyError (List (String × Json))
  | .obj kvs => .ok kvs
  | _ => .error .attributeError

/-- One parsed weather reading: the dict built by
`IthacaWeatherScraper.parse_weather_data` (src/scraper.py:75-97).
Field values are the raw JSON values `dict.get` returned (`none` when
the provider field was absent); `timestamp` is the capture instant
(`datetime.now()`), in seconds. -/
structure Obs where
  location : String
  timestamp : Nat
  temperature : Option Json
  feels_like : Option Json
  humidity : Option Json
  pressure : Option Json
  visibility : Option Json
  uv_index : Option Json
  weather_condition : Option Json
  weather_description : Option Json
  wind_speed : Option Json
  wind_direction : Option Json
  wind_degree : Option Json
  cloudiness : Option Json
  is_day : Option Json
  raw_data : String

/-- One row of the SQLite `weather_data` table: a parsed reading plus the
`id INTEGER PRIMARY KEY AUTOINCREMENT` surrogate key. -/
structure WeatherRow extends Obs where
  id : Nat

/-- The database: rows of `weather_data` in insertion order. -/
abbrev Store : Type := List WeatherRow

/-- The four registered locations (`self.locations` in
`IthacaWeatherScraper.__init__`, src/scraper.py:15-20; coordinates are
not needed by any claim). -/
def ithacaLocations : List String :=
  ["Downtown Ithaca", "Cornell Campus", "Ithaca College", "Cayuga Lake"]

/-- `IthacaWeatherScraper.parse_weather_data` (src/scraper.py:75-97):
`current = raw_data.get('current', {})`, `condition =
current.get('condition', {})`, then every field is a plain `dict.get`
(no validation, no error on a missing field); `raw_data` stores
`json.dumps(raw_data)`.  The input is the decoded JSON dict
(`response.json()`), `now` the capture instant. -/
def parse_weather_data (raw : List (String × Json)) (location_name : String) (now : Nat) :
    Except PyError Obs := do
  let current ← asObj ((dget raw "current").getD (.obj []))
  let condition ← asObj ((dget current "condition").getD (.obj []))
  return {
    location := location_name
    timestamp := now
    temperature := dget current "temp_f"
    feels_like := dget current "feelslike_f"
    humidity := dget current "humidity"
    pressure := dget current "pressure_in"
    visibility := dget current "vis_miles"
    uv_index := dget current "uv"
    weather_condition := dget condition "text"
    weather_description := dget condition "text"
    wind_speed := dget current "wind_mph"
    wind_direction := dget current "wind_dir"
    wind_degree := dget current "wind_degree"
    cloudiness := dget current "cloud"
    is_day := dget current "is_day"
    raw_data := dumps (.obj raw) }

/-- The next `AUTOINCREMENT` id: one more than the largest id in use. -/
def nextId (s : Store) : Nat := (List.map (fun r => r.id) s).foldr max 0 + 1

/-- `IthacaWeatherScraper.save_weather_data` (src/scraper.py:99-130): one
`INSERT`, appending a single fully-formed row. -/
def save_weather_data (d : Obs) (s : Store) : Store :=
  s ++ [{ toObs := d, id := nextId s }]

/-- `IthacaWeatherScraper.get_current_weather` (src/scraper.py:54-73):
returns `None` without touching the network when the name is not
registered; otherwise issues exactly one outbound request, whose outcome
the oracle `http` models (`none` standing for a caught
`requests.exceptions.RequestException`).  The second component counts
outbound requests issued by the call. -/
def get_current_weather (http : String → Option (List (String × Json)))
    (location_name : String) : Option (List (String × Json)) × Nat :=
  if location_name ∈ ithacaLocations then (http location_name, 1) else (none, 0)

/-- The per-location cycle outcome tally named by the specification
(`runOnce() -> CycleReport`); the Python code never builds one. -/
structure CycleReport where
  succeeded : Nat
  failed : Nat
  deriving DecidableEq

/-- Python truthiness of a fetch result, as tested by `if raw_data:`
(src/scraper.py:140): `None` is falsy, and so is an empty dict `{}` —
only a nonempty payload dict takes the success branch. -/
def rawTruthy : Option (List (String × Json)) → Bool
  | some (_ :: _) => true
  | _ => false

/-- The loop body of `scrape_all_locations`: iterate the given location
names in order, guarding each fetch result with `if raw_data:`
(truthiness: a `None` result or an empty payload dict only logs a
failure line and the loop moves on); a truthy payload is parsed and
saved before the next location.  The `List (String × Bool)` accumulator
records the per-location success and failure print lines in order. -/
def scrapeGo (http : String → Option (List (String × Json))) (now : Nat) :
    List String → Store → List (String × Bool) →
    Except PyError (Store × List (String × Bool))
  | [], s, log => .ok (s, log)
  | name :: rest, s, log =>
    match (get_current_weather http name).1 with
    | some (kv :: raw) => do
        let d ← parse_weather_data (kv :: raw) name now
        scrapeGo http now rest (save_weather_data d s) (log ++ [(name, true)])
    | _ => scrapeGo http now rest s (log ++ [(name, false)])

/-- `IthacaWeatherScraper.scrape_all_locations` (src/scraper.py:132-152):
one collection cycle over the full registry.  The Python function body
ends without a `return` statement, so its return value is `None`; the
`Option CycleReport` component renders that value (always `none`).
The `time.sleep(1)` pacing is real-time behaviour outside this
embedding; `now` stands for the capture instant of the cycle. -/
def scrape_all_locations (http : String → Option (List (String × Json))) (now : Nat)
    (s : Store) : Except PyError (Store × List (String × Bool) × Option CycleReport) :=
  (scrapeGo http now ithacaLocations s []).map (fun p => (p.1, p.2, none))

/-- Newest-first timestamp order (the `ORDER BY timestamp DESC` key). -/
def tsDesc (a b : WeatherRow) : Prop := b.timestamp ≤ a.timestamp

instance : DecidableRel tsDesc := fun a b => inferInstanceAs (Decidable (b.timestamp ≤ a.timestamp))

instance : IsTotal WeatherRow tsDesc := ⟨fun a b => le_total b.timestamp a.timestamp⟩

instance : IsTrans WeatherRow tsDesc := ⟨fun _ _ _ h1 h2 => le_trans h2 h1⟩

/-- The results a SQLite execution of
`SELECT * FROM weather_data WHERE timestamp > ? ORDER BY timestamp DESC`
may return (src/scraper.py:161-165 and src/dashboard.py:48-52): some
arrangement of exactly the rows with `timestamp > since`, in
nonincreasing timestamp order.  The SQL names no further sort key, so
the relative order of rows with equal timestamps is not determined. -/
def queryResult (s : Store) (since : Nat) (out : List WeatherRow) : Prop :=
  out.Perm (List.filter (fun r => decide (since < r.timestamp)) s) ∧ out.Sorted tsDesc

/-- `IthacaWeatherScraper.get_recent_data` (src/scraper.py:154-171), as
one concrete execution of the SQL query: rows of the last `hours` hours
(`since = now - hours * 3600`), newest first (a stable sort is used here
to pick one arrangement; `queryResult` captures every arrangement SQLite
may produce). -/
def get_recent_data (s : Store) (now hours : Nat) : List WeatherRow :=
  List.insertionSort tsDesc
    (List.filter (fun r => decide (now - hours * 3600 < r.timestamp)) s)

/-- The spec's storage-fault taxonomy (§7): `StorageError` =
{SchemaInit, WriteFailure, ReadFailure}. -/
inductive StorageError where
  | schemaInit : StorageError
  | writeFailure : StorageError
  | readFailure : StorageError

/-- `IthacaWeatherDashboard.get_weather_data` (src/dashboard.py:35-63):
returns an empty frame when the database file is absent; otherwise runs
the windowed query and, on ANY exception, prints and returns an empty
frame (`except Exception: ... return pd.DataFrame()`).  `readResult` is
the storage layer's outcome for the windowed `SELECT`. -/
def get_weather_data (dbExists : Bool) (readResult : Except StorageError (List WeatherRow)) :
    List WeatherRow :=
  if !dbExists then []
  else
    match readResult with
    | .ok rows => rows
    | .error _ => []

/-- One card of `get_latest_conditions`'s result: the dict
`{'temperature', 'feels_like', 'condition', 'humidity', 'wind_speed',
'timestamp'}` (src/dashboard.py:92-99). -/
structure CondCard where
  temperature : Option Json
  feels_like : Option Json
  condition : Option Json
  humidity : Option Json
  wind_speed : Option Json
  timestampC : Json

/-- The card built from a stored row (src/dashboard.py:92-99). -/
def cardOf (r : WeatherRow) : CondCard :=
  { temperature := r.temperature
    feels_like := r.feels_like
    condition := r.weather_condition
    humidity := r.humidity
    wind_speed := r.wind_speed
    timestampC := .num (r.timestamp : ℚ) }

/-- The fixed demo mapping `get_latest_conditions` returns when the
window holds no data (src/dashboard.py:68-87), with the literal values
of the source. -/
def demoConditions (now : Nat) : List (String × CondCard) :=
  [("Downtown Ithaca",
    { temperature := some (.num (623 / 10)), feels_like := some (.num (641 / 10)),
      condition := some (.str "Partly Cloudy"), humidity := some (.num 68),
      wind_speed := some (.num (72 / 10)), timestampC := .num (now : ℚ) }),
   ("Cornell Campus",
    { temperature := some (.num (608 / 10)), feels_like := some (.num (625 / 10)),
      condition := some (.str "Overcast"), humidity := some (.num 72),
      wind_speed := some (.num (81 / 10)), timestampC := .num (now : ℚ) }),
   ("Ithaca College",
    { temperature := some (.num (615 / 10)), feels_like := some (.num (632 / 10)),
      condition := some (.str "Cloudy"), humidity := some (.num 70),
      wind_speed := some (.num (68 / 10)), timestampC := .num (now : ℚ) }),
   ("Cayuga Lake",
    { temperature := some (.num (641 / 10)), feels_like := some (.num (658 / 10)),
      condition := some (.str "Partly Cloudy"), humidity := some (.num 65),
      wind_speed := some (.num (59 / 10)), timestampC := .num (now : ℚ) })]

/-- The non-demo path of `get_latest_conditions` (src/dashboard.py:89-99):
for each location in order of first appearance in the frame
(`df['location'].unique()`), the first row of that location
(`df[df['location'] == location].iloc[0]`). -/
def latestFold (df : List WeatherRow) : List (String × CondCard) :=
  df.foldl
    (fun acc r =>
      if acc.any (fun p => p.1 == r.location) then acc
      else acc ++ [(r.location, cardOf r)]) []

/-- `IthacaWeatherDashboard.get_latest_conditions` (src/dashboard.py:65-101),
as a function of the already-queried one-hour window frame `df`: an
empty frame yields the fixed demo mapping, otherwise one card per
location present in the frame. -/
def get_latest_conditions_from (now : Nat) (df : List WeatherRow) : List (String × CondCard) :=
  if df.isEmpty then demoConditions now else latestFold df

/-- `df['timestamp'].dt.floor('h')` on a seconds timestamp. -/
def floorHour (t : Nat) : Nat := t / 3600 * 3600

/-- The numeric temperature of a row, when it has one (pandas treats a
missing value as NaN and skips it in `min`/`max`). -/
def numTemp (r : WeatherRow) : Option ℚ :=
  match r.temperature with
  | some (.num q) => some q
  | _ => none

/-- Minimum of a rational list (`none` on an empty list, as pandas
yields NaN for an all-NaN group). -/
def qMin : List ℚ → Option ℚ
  | [] => none
  | x :: xs => some (xs.foldl min x)

/-- Maximum of a rational list (`none` on an empty list). -/
def qMax : List ℚ → Option ℚ
  | [] => none
  | x :: xs => some (xs.foldl max x)

/-- The pooled numeric temperatures of one hour bucket, across every
location (the groupby key is the floored hour only). -/
def bucketTemps (rows : List WeatherRow) (h : Nat) : List ℚ :=
  (List.filter (fun r => decide (floorHour r.timestamp = h)) rows).filterMap numTemp

/-- The groupby keys: the distinct floored hours, ascending (pandas
sorts group keys). -/
def hourKeys (rows : List WeatherRow) : List Nat :=
  List.insertionSort (fun a b => a ≤ b)
    ((List.map (fun r => floorHour r.timestamp) rows).foldl
      (fun acc x => if x ∈ acc then acc else acc ++ [x]) [])

/-- The `variance_data` table of
`IthacaWeatherDashboard.create_weather_variance_chart`
(src/dashboard.py:184-187): bucket by flooring the timestamp to the
hour, aggregate `min` and `max` of temperature over the whole bucket,
and `range = max - min`.  One entry per bucket:
`(hour, min, max, range)`.  (The `std` aggregate the source also
computes feeds no claim and would need real-valued square roots, so it
is not carried here.) -/
def variance_data (rows : List WeatherRow) : List (Nat × Option ℚ × Option ℚ × Option ℚ) :=
  (hourKeys rows).map (fun h =>
    let temps := bucketTemps rows h
    (h, qMin temps, qMax temps,
      match qMax temps, qMin temps with
      | some M, some m => some (M - m)
      | _, _ => none))

/-- A payload shaped like a `weatherapi.com` response, used to
instantiate theorems at a concrete input. -/
def samplePayload : List (String × Json) :=
  [("location", .obj [("name", .str "Ithaca")]),
   ("current", .obj
     [("temp_f", .num 60), ("feelslike_f", .num 58), ("humidity", .num 65),
      ("pressure_in", .num 30), ("vis_miles", .num 9), ("uv", .num 4),
      ("wind_mph", .num 7), ("wind_dir", .str "NW"), ("wind_degree", .num 315),
      ("cloud", .num 40), ("is_day", .num 1),
      ("condition", .obj [("text", .str "Partly cloudy")])])]

/-- A placeholder reading (only used to project concrete parse results). -/
def obsDefault : Obs :=
  { location := "", timestamp := 0, temperature := none, feels_like := none,
    humidity := none, pressure := none, visibility := none, uv_index := none,
    weather_condition := none, weather_description := none, wind_speed := none,
    wind_direction := none, wind_degree := none, cloudiness := none,
    is_day := none, raw_data := "" }

theorem parse_ok_shape (raw : List (String × Json)) (loc : String) (now : Nat)
    (current condition : List (String × Json))
    (hc : asObj ((dget raw "current").getD (.obj [])) = .ok current)
    (hd : asObj ((dget current "condition").getD (.obj [])) = .ok condition) :
    parse_weather_data raw loc now = .ok {
      location := loc
      timestamp := now
      temperature := dget current "temp_f"
      feels_like := dget current "feelslike_f"
      humidity := dget current "humidity"
      pressure := dget current "pressure_in"
      visibility := dget current "vis_miles"
      uv_index := dget current "uv"
      weather_condition := dget condition "text"
      weather_description := dget condition "text"
      wind_speed := dget current "wind_mph"
      wind_direction := dget current "wind_dir"
      wind_degree := dget current "wind_degree"
      cloudiness := dget current "cloud"
      is_day := dget current "is_day"
      raw_data := dumps (.obj raw) } := by
  rw [parse_weather_data]
  rw [hc]
  show (asObj ((dget current "condition").getD (.obj []))).bind _ = _
  rw [hd]
  rfl

theorem parse_err1 (raw : List (String × Json)) (loc : String) (now : Nat) (e : PyError)
    (hc : asObj ((dget raw "current").getD (.obj [])) = .error e) :
    parse_weather_data raw loc now = .error e := by
  rw [parse_weather_data, hc]
  rfl

theorem parse_err2 (raw : List (String × Json)) (loc : String) (now : Nat) (e : PyError)
    (current : List (String × Json))
    (hc : asObj ((dget raw "current").getD (.obj [])) = .ok current)
    (hd : asObj ((dget current "condition").getD (.obj [])) = .error e) :
    parse_weather_data raw loc now = .error e := by
  rw [parse_weather_data, hc]
  show (asObj ((dget current "condition").getD (.obj []))).bind _ = _
  rw [hd]
  rfl

theorem parse_ok_inv (raw : List (String × Json)) (loc : String) (now : Nat) (d : Obs)
    (h : parse_weather_data raw loc now = .ok d) :
    ∃ current condition : List (String × Json),
      asObj ((dget raw "current").getD (.obj [])) = .ok current ∧
      asObj ((dget current "condition").getD (.obj [])) = .ok condition := by
  cases hc : asObj ((dget raw "current").getD (.obj [])) with
  | error e =>
    rw [parse_err1 raw loc now e hc] at h
    exact Except.noConfusion h
  | ok current =>
    cases hd : asObj ((dget current "condition").getD (.obj [])) with
    | error e =>
      rw [parse_err2 raw loc now e current hc hd] at h
      exact Except.noConfusion h
    | ok condition => exact ⟨current, condition, rfl, hd⟩

/-- C9: for every provider payload and location name, the Observation
produced by `parse_weather_data` has `weather_condition` equal to
`weather_description` — both columns are filled from the same
`condition.get('text')` (src/scraper.py:89-90). -/
theorem C9_condition_eq_description (raw : List (String × Json)) (loc : String) (now : Nat)
    (d : Obs) (h : parse_weather_data raw loc now = .ok d) :
    d.weather_condition = d.weather_description := by
  obtain ⟨current, condition, hc, hd⟩ := parse_ok_inv raw loc now d h
  rw [parse_ok_shape raw loc now current condition hc hd] at h
  cases h
  rfl

/-- Witness for C9 at the sample payload. -/
theorem C9_condition_eq_description_witness :
    ((parse_weather_data samplePayload "Downtown Ithaca" 0).toOption.getD obsDefault).weather_condition =
    ((parse_weather_data samplePayload "Downtown Ithaca" 0).toOption.getD obsDefault).weather_description :=
  C9_condition_eq_description samplePayload "Downtown Ithaca" 0 _ (by rfl)

/-- C10: for every location name not in the registry,
`get_current_weather` returns `None` having issued no outbound request
(src/scraper.py:56-58 returns before any request is built); the function
touches no storage at all, so the store is unchanged by construction. -/
theorem C10_unknown_location (http : String → Option (List (String × Json)))
    (name : String) (h : name ∉ ithacaLocations) :
    get_current_weather http name = (none, 0) := by
  rw [get_current_weather, if_neg h]

/-- Witness for C10 at a name outside the registry. -/
theorem C10_unknown_location_witness :
    get_current_weather (fun _ => none) "Syracuse" = (none, 0) :=
  C10_unknown_location (fun _ => none) "Syracuse" (by decide)

/-- A payload whose `current` dict carries a condition but no
temperature and none of the optional fields. -/
def payloadNoTemp : List (String × Json) :=
  [("current", .obj [("condition", .obj [("text", .str "Sunny")])])]

/-- C5 counterexample: the claim says a payload with the temperature
field absent fails with a `MissingRequiredField` fetch error, but
`parse_weather_data` uses plain `dict.get` for every field
(src/scraper.py:83): on `payloadNoTemp` it succeeds and returns an
Observation whose temperature is `None`. -/
theorem C5_missing_temperature_counterexample :
    (parse_weather_data payloadNoTemp "Downtown Ithaca" 0).isOk = true ∧
    (parse_weather_data payloadNoTemp "Downtown Ithaca" 0).toOption.map
      (fun d => d.temperature) = some none := by
  exact ⟨rfl, rfl⟩

/-- C5 (amended): `parse_weather_data` never fails on missing fields —
required or optional.  Whenever the `current` and `condition` values are
dicts (the only shapes the function can traverse), parsing succeeds, and
every absent field — temperature included — is stored as the explicit
unknown marker `None`, never a guessed value: each stored field equals
exactly the `dict.get` of the provider payload. -/
theorem C5_missing_fields_never_raise (raw : List (String × Json)) (loc : String) (now : Nat)
    (current condition : List (String × Json))
    (hc : asObj ((dget raw "current").getD (.obj [])) = .ok current)
    (hd : asObj ((dget current "condition").getD (.obj [])) = .ok condition) :
    ∃ d, parse_weather_data raw loc now = .ok d ∧
      d.temperature = dget current "temp_f" ∧
      d.pressure = dget current "pressure_in" ∧
      d.uv_index = dget current "uv" ∧
      d.visibility = dget current "vis_miles" ∧
      (dget current "temp_f" = none → d.temperature = none) := by
  refine ⟨_, parse_ok_shape raw loc now current condition hc hd, rfl, rfl, rfl, rfl, ?_⟩
  intro h
  exact h

/-- Witness for C5 at a payload with an empty `current` dict: no error,
and temperature, pressure, UV index and visibility all `None`. -/
theorem C5_missing_fields_never_raise_witness :
    ∃ d, parse_weather_data [("current", .obj [])] "Cornell Campus" 5 = .ok d ∧
      d.temperature = none ∧ d.pressure = none ∧ d.uv_index = none ∧
      d.visibility = none ∧ (none = (none : Option Json) → d.temperature = none) :=
  C5_missing_fields_never_raise [("current", .obj [])] "Cornell Campus" 5 [] [] rfl rfl

/-- C6 counterexample: a storage read failure does not propagate out of
`get_weather_data` — the `except` clause (src/dashboard.py:61-63) maps
it to the very same empty result an empty readable store produces, so
the two cases are indistinguishable to the caller. -/
theorem C6_read_failure_counterexample :
    get_weather_data true (.error .readFailure) = ([] : List WeatherRow) ∧
    get_weather_data true (.ok ([] : List WeatherRow)) = [] :=
  ⟨rfl, rfl⟩

/-- C6 (amended): `get_weather_data` swallows every storage error and
returns an empty frame in its place, identical to the empty-store
result; a successful read is passed through unchanged.  The caller
cannot distinguish "no data in window" from "store unreadable". -/
theorem C6_read_failure_swallowed (e : StorageError) (rows : List WeatherRow) :
    get_weather_data true (.error e) = [] ∧
    get_weather_data true (.ok rows) = rows ∧
    get_weather_data true (.error e) = get_weather_data true (.ok []) :=
  ⟨rfl, rfl, rfl⟩

/-- C8: the Observation stores `json.dumps` of the unmodified provider
payload in `raw_data` (src/scraper.py:96), and deserializing it yields
exactly the original payload.  The hypothesis `Json.jsonOK` restricts to
the fragment on which this embedding's serializer coincides with
Python's (integral numbers, printable-ASCII strings); float `repr`
round-tripping is float semantics, outside the embedding. -/
theorem C8_raw_data_roundtrip (raw : List (String × Json)) (loc : String) (now : Nat)
    (d : Obs) (hOK : Json.jsonOK (.obj raw) = true)
    (h : parse_weather_data raw loc now = .ok d) :
    loads d.raw_data = some (.obj raw) := by
  obtain ⟨current, condition, hc, hd⟩ := parse_ok_inv raw loc now d h
  rw [parse_ok_shape raw loc now current condition hc hd] at h
  cases h
  exact loads_dumps hOK

/-- Witness for C8 at the sample payload. -/
theorem C8_raw_data_roundtrip_witness :
    loads (((parse_weather_data samplePayload "Downtown Ithaca" 0).toOption.getD
      obsDefault).raw_data) = some (.obj samplePayload) :=
  C8_raw_data_roundtrip samplePayload "Downtown Ithaca" 0 _ (by rfl) (by rfl)

theorem length_filter_partition (L : List String) (p : String → Bool) :
    (L.filter p).length + (L.filter (fun l => !(p l))).length = L.length := by
  induction L with
  | nil => exact rfl
  | cons hd tl ih =>
    cases h : p hd <;> simp [List.filter_cons, h] <;> omega

theorem except_isOk_exists {e α : Type} {x : Except e α} (h : x.isOk = true) :
    ∃ v, x = .ok v := by
  cases x with
  | error err => exact absurd h (by simp [Except.isOk, Except.toBool])
  | ok v => exact ⟨v, rfl⟩

theorem scrapeGo_spec (http : String → Option (List (String × Json))) (now : Nat) :
    ∀ (locs : List String) (s : Store) (log : List (String × Bool)),
    (∀ l ∈ locs, l ∈ ithacaLocations) →
    (∀ l p, http l = some p → (parse_weather_data p l now).isOk = true) →
    ∃ s2 log2, scrapeGo http now locs s log = .ok (s2, log2) ∧
      log2 = log ++ locs.map (fun l => (l, rawTruthy (http l))) ∧
      s2.length = s.length + (locs.filter (fun l => rawTruthy (http l))).length := by
  intro locs
  induction locs with
  | nil =>
    intro s log _ _
    exact ⟨s, log, rfl, by simp, by simp⟩
  | cons name rest ih =>
    intro s log hmem hparse
    have hname : name ∈ ithacaLocations := hmem name (by simp)
    have hrest : ∀ l ∈ rest, l ∈ ithacaLocations := fun l hl => hmem l (by simp [hl])
    have hget : (get_current_weather http name).1 = http name := by
      rw [get_current_weather, if_pos hname]
    cases hh : http name with
    | none =>
      have hstep : scrapeGo http now (name :: rest) s log =
          scrapeGo http now rest s (log ++ [(name, false)]) := by
        rw [scrapeGo, hget, hh]
      obtain ⟨s2, log2, he, hl, hs⟩ := ih s (log ++ [(name, false)]) hrest hparse
      refine ⟨s2, log2, by rw [hstep, he], ?_, ?_⟩
      · rw [hl]
        simp [hh, rawTruthy]
      · rw [hs]
        simp [hh, rawTruthy]
    | some raw =>
      cases raw with
      | nil =>
        have hstep : scrapeGo http now (name :: rest) s log =
            scrapeGo http now rest s (log ++ [(name, false)]) := by
          rw [scrapeGo, hget, hh]
        obtain ⟨s2, log2, he, hl, hs⟩ := ih s (log ++ [(name, false)]) hrest hparse
        refine ⟨s2, log2, by rw [hstep, he], ?_, ?_⟩
        · rw [hl]
          simp [hh, rawTruthy]
        · rw [hs]
          simp [hh, rawTruthy]
      | cons kv raw1 =>
        obtain ⟨d, hd⟩ := except_isOk_exists (hparse name (kv :: raw1) hh)
        have hstep : scrapeGo http now (name :: rest) s log =
            scrapeGo http now rest (save_weather_data d s) (log ++ [(name, true)]) := by
          rw [scrapeGo, hget, hh]
          show (parse_weather_data (kv :: raw1) name now).bind _ = _
          rw [hd]
          rfl
        obtain ⟨s2, log2, he, hl, hs⟩ :=
          ih (save_weather_data d s) (log ++ [(name, true)]) hrest hparse
        refine ⟨s2, log2, by rw [hstep, he], ?_, ?_⟩
        · rw [hl]
          simp [hh, rawTruthy]
        · rw [hs]
          simp [hh, rawTruthy, save_weather_data]
          omega

/-- C2 (amended): one run of `scrape_all_locations` with exactly one of
the four registered locations failing its fetch (its result falsy under
`if raw_data:` — a caught network error, or an empty payload dict) still
processes every remaining location in order (the failure only logs a ❌
line and the loop continues, src/scraper.py:146-147), appends exactly
one row per succeeding location — three new rows — and logs three
successes and one failure; but the function returns no CycleReport: its
Python body ends without a `return`, so the returned value is `None`
(`none` here).  The hypothesis `hparse` states that every fetched
payload is parseable (its `current`/`condition` values are dicts), which
is the claim's "the other fetches succeed". -/
theorem C2_cycle_fault_isolation (http : String → Option (List (String × Json)))
    (now : Nat) (s : Store)
    (hparse : ∀ l p, http l = some p → (parse_weather_data p l now).isOk = true)
    (hfail : (ithacaLocations.filter (fun l => !(rawTruthy (http l)))).length = 1) :
    ∃ s2 log, scrape_all_locations http now s = .ok (s2, log, none) ∧
      s2.length = s.length + 3 ∧
      List.map Prod.fst log = ithacaLocations ∧
      (log.filter (fun e => e.2)).length = 3 ∧
      (log.filter (fun e => !e.2)).length = 1 := by
  obtain ⟨s2, log2, he, hl, hs⟩ :=
    scrapeGo_spec http now ithacaLocations s [] (fun l hl => hl) hparse
  have hpart := length_filter_partition ithacaLocations (fun l => rawTruthy (http l))
  have hlen : ithacaLocations.length = 4 := rfl
  have hsucc : (ithacaLocations.filter (fun l => rawTruthy (http l))).length = 3 := by omega
  refine ⟨s2, log2, ?_, by omega, ?_, ?_, ?_⟩
  · rw [scrape_all_locations, he]
    rfl
  · rw [hl]
    rw [List.nil_append, List.map_map]
    exact List.map_id _
  · rw [hl]
    simp only [List.nil_append, List.filter_map]
    rw [List.length_map]
    convert hsucc using 2
  · rw [hl]
    simp only [List.nil_append, List.filter_map]
    rw [List.length_map]
    convert hfail using 2

/-- A well-formed payload served for every location that answers. -/
def okPayload : List (String × Json) :=
  [("current", .obj [("temp_f", .num 60),
    ("condition", .obj [("text", .str "Sunny")])])]

/-- A fetch oracle on which exactly one of the four registered
locations — "Cornell Campus" — fails with a (caught) network error. -/
def httpFailCornell : String → Option (List (String × Json)) :=
  fun name => if name = "Cornell Campus" then none else some okPayload

/-- C2 counterexample: on the claim's own scenario (4 locations, the
fetch of exactly one failing) the cycle appends exactly 3 rows, but it
does not return a CycleReport recording 3 succeeded and 1 failed: the
Python function returns `None`, so no CycleReport value of any kind is
returned. -/
theorem C2_no_cyclereport_counterexample :
    (scrape_all_locations httpFailCornell 0 []).toOption.map
      (fun x => x.1.length) = some 3 ∧
    (scrape_all_locations httpFailCornell 0 []).toOption.map
      (fun x => x.2.2) = some none ∧
    ¬ ∃ r : CycleReport, (scrape_all_locations httpFailCornell 0 []).toOption.map
      (fun x => x.2.2) = some (some r) := by
  refine ⟨rfl, rfl, ?_⟩
  rintro ⟨r, hr⟩
  rw [show (scrape_all_locations httpFailCornell 0 []).toOption.map
    (fun x => x.2.2) = some none from rfl] at hr
  simp at hr

/-- Witness for C2 on the concrete one-failure oracle. -/
theorem C2_cycle_fault_isolation_witness :
    ∃ s2 log, scrape_all_locations httpFailCornell 0 [] = .ok (s2, log, none) ∧
      s2.length = List.length ([] : Store) + 3 ∧
      List.map Prod.fst log = ithacaLocations ∧
      (log.filter (fun e => e.2)).length = 3 ∧
      (log.filter (fun e => !e.2)).length = 1 :=
  C2_cycle_fault_isolation httpFailCornell 0 []
    (by
      intro l p hp
      rw [httpFailCornell] at hp
      by_cases hl : l = "Cornell Campus"
      · rw [if_pos hl] at hp
        exact Option.noConfusion hp
      · rw [if_neg hl] at hp
        cases hp
        rfl)
    (by rfl)

/-- C7: on a store whose table exists but holds no rows, every
time-window query returns an empty sequence and raises no error: the
only result the SQL query admits on an empty table is the empty list,
`get_recent_data` returns it for any window, and the dashboard's
24-hour read (`seriesWindow(24)` = `get_weather_data(hours=24)`) passes
the empty result through unchanged rather than failing. -/
theorem C7_empty_store_query (now hours : Nat) (out : List WeatherRow)
    (h : queryResult ([] : Store) (now - hours * 3600) out) :
    out = [] ∧
    get_recent_data ([] : Store) now hours = [] ∧
    get_weather_data true (.ok ([] : List WeatherRow)) = [] :=
  ⟨List.Perm.eq_nil h.1, rfl, rfl⟩

/-- Witness for C7 at the 24-hour window. -/
theorem C7_empty_store_query_witness :
    ([] : List WeatherRow) = [] ∧
    get_recent_data ([] : Store) 90000 24 = [] ∧
    get_weather_data true (.ok ([] : List WeatherRow)) = [] :=
  C7_empty_store_query 90000 24 [] ⟨List.Perm.nil, List.sorted_nil⟩

theorem get_recent_data_valid (s : Store) (now hours : Nat) :
    queryResult s (now - hours * 3600) (get_recent_data s now hours) :=
  ⟨List.perm_insertionSort tsDesc _, List.sorted_insertionSort tsDesc _⟩

/-- C3 (amended): every result the query may return consists of exactly
the rows with timestamp strictly greater than `since = now - hours*3600`
(no duplication, no loss: any valid result is a permutation of that
filtered row set), ordered newest-first by timestamp; and
`get_recent_data` is one such valid result.  The SQL orders by
`timestamp DESC` alone, so no secondary (location) or tertiary
(insertion-sequence) key constrains the order of rows with equal
timestamps. -/
theorem C3_query_exact_window_newest_first (s : Store) (now hours : Nat) :
    queryResult s (now - hours * 3600) (get_recent_data s now hours) ∧
    ∀ out, queryResult s (now - hours * 3600) out →
      out.Sorted tsDesc ∧
      out.Perm (List.filter (fun r => decide (now - hours * 3600 < r.timestamp)) s) ∧
      ∀ r, r ∈ out ↔ r ∈ s ∧ now - hours * 3600 < r.timestamp := by
  refine ⟨get_recent_data_valid s now hours, ?_⟩
  intro out h
  refine ⟨h.2, h.1, ?_⟩
  intro r
  rw [h.1.mem_iff, List.mem_filter]
  simp

/-- A stored row with the given location, timestamp, id and optional
numeric temperature; every other sensor field absent. -/
def mkRow (loc : String) (ts idN : Nat) (t : Option ℚ) : WeatherRow :=
  { location := loc, timestamp := ts, temperature := t.map Json.num,
    feels_like := none, humidity := none, pressure := none, visibility := none,
    uv_index := none, weather_condition := none, weather_description := none,
    wind_speed := none, wind_direction := none, wind_degree := none,
    cloudiness := none, is_day := none, raw_data := "", id := idN }

/-- First-inserted row of the coinciding-timestamp pair. -/
def rowTieB : WeatherRow := mkRow "Downtown Ithaca" 100 1 none

/-- Second-inserted row of the coinciding-timestamp pair. -/
def rowTieA : WeatherRow := mkRow "Cornell Campus" 100 2 none

/-- A store holding two rows whose timestamps coincide. -/
def storeTie : Store := [rowTieB, rowTieA]

/-- The total order the claim asserts: timestamp descending, then
location name (lexicographically on its characters), then insertion
sequence number.  (This definition follows the claim's words, for
comparison against the code's contract.) -/
def specLe (a b : WeatherRow) : Prop :=
  b.timestamp < a.timestamp ∨
    (a.timestamp = b.timestamp ∧
      (a.location.data < b.location.data ∨ (a.location = b.location ∧ a.id ≤ b.id)))

instance : DecidableRel specLe := fun a b =>
  inferInstanceAs (Decidable (b.timestamp < a.timestamp ∨
    (a.timestamp = b.timestamp ∧
      (a.location.data < b.location.data ∨ (a.location = b.location ∧ a.id ≤ b.id)))))

/-- C3 counterexample: on a store with two rows of equal timestamp the
SQL contract (`ORDER BY timestamp DESC` only) admits both arrangements,
including one that violates the claimed secondary/tertiary keys — the
query's order is not the claimed stable total order, and is not even
deterministic on ties. -/
theorem C3_no_stable_tie_order_counterexample :
    queryResult storeTie 0 [rowTieB, rowTieA] ∧
    queryResult storeTie 0 [rowTieA, rowTieB] ∧
    ¬ List.Sorted specLe [rowTieB, rowTieA] ∧
    [rowTieB, rowTieA] ≠ [rowTieA, rowTieB] := by
  refine ⟨⟨List.Perm.refl _, by decide⟩,
    ⟨List.Perm.swap rowTieB rowTieA [], by decide⟩, by decide, ?_⟩
  intro h
  have h1 : rowTieB = rowTieA := (List.cons.inj h).1
  have h2 := congrArg (fun r : WeatherRow => r.location) h1
  exact absurd h2 (by decide)

/-- Witness for C3 on the coinciding-timestamp store. -/
theorem C3_query_exact_window_newest_first_witness :
    queryResult storeTie (0 - 24 * 3600) [rowTieA, rowTieB] ∧
    (List.Sorted tsDesc [rowTieA, rowTieB] ∧
      List.Perm [rowTieA, rowTieB]
        (List.filter (fun r => decide (0 - 24 * 3600 < r.timestamp)) storeTie) ∧
      ∀ r, r ∈ [rowTieA, rowTieB] ↔ r ∈ storeTie ∧ 0 - 24 * 3600 < r.timestamp) :=
  have hq : queryResult storeTie (0 - 24 * 3600) [rowTieA, rowTieB] :=
    ⟨List.Perm.swap rowTieB rowTieA [], by decide⟩
  ⟨hq, (C3_query_exact_window_newest_first storeTie 0 24).2 [rowTieA, rowTieB] hq⟩

theorem foldl_min_spec (xs : List ℚ) : ∀ a : ℚ,
    (xs.foldl min a = a ∨ xs.foldl min a ∈ xs) ∧
    xs.foldl min a ≤ a ∧ ∀ x ∈ xs, xs.foldl min a ≤ x := by
  induction xs with
  | nil => exact fun a => ⟨Or.inl rfl, le_refl a, by simp⟩
  | cons y ys ih =>
    intro a
    have h := ih (min a y)
    rw [List.foldl_cons]
    refine ⟨?_, ?_, ?_⟩
    · rcases h.1 with he | hm
      · rw [he]
        rcases min_choice a y with h1 | h1 <;> rw [h1]
        · exact Or.inl rfl
        · exact Or.inr (by simp)
      · exact Or.inr (by simp [hm])
    · exact le_trans h.2.1 (min_le_left _ _)
    · intro x hx
      rcases List.mem_cons.1 hx with rfl | h2
      · exact le_trans h.2.1 (min_le_right _ _)
      · exact h.2.2 x h2

theorem foldl_max_spec (xs : List ℚ) : ∀ a : ℚ,
    (xs.foldl max a = a ∨ xs.foldl max a ∈ xs) ∧
    a ≤ xs.foldl max a ∧ ∀ x ∈ xs, x ≤ xs.foldl max a := by
  induction xs with
  | nil => exact fun a => ⟨Or.inl rfl, le_refl a, by simp⟩
  | cons y ys ih =>
    intro a
    have h := ih (max a y)
    rw [List.foldl_cons]
    refine ⟨?_, ?_, ?_⟩
    · rcases h.1 with he | hm
      · rw [he]
        rcases max_choice a y with h1 | h1 <;> rw [h1]
        · exact Or.inl rfl
        · exact Or.inr (by simp)
      · exact Or.inr (by simp [hm])
    · exact le_trans (le_max_left _ _) h.2.1
    · intro x hx
      rcases List.mem_cons.1 hx with rfl | h2
      · exact le_trans (le_max_right _ _) h.2.1
      · exact h.2.2 x h2

theorem qMin_spec (l : List ℚ) (hne : l ≠ []) :
    ∃ m, qMin l = some m ∧ m ∈ l ∧ ∀ x ∈ l, m ≤ x := by
  cases l with
  | nil => exact absurd rfl hne
  | cons y ys =>
    have h := foldl_min_spec ys y
    refine ⟨ys.foldl min y, rfl, ?_, ?_⟩
    · rcases h.1 with he | hm
      · rw [he]; simp
      · simp [hm]
    · intro x hx
      rcases List.mem_cons.1 hx with rfl | h2
      · exact h.2.1
      · exact h.2.2 x h2

theorem qMax_spec (l : List ℚ) (hne : l ≠ []) :
    ∃ M, qMax l = some M ∧ M ∈ l ∧ ∀ x ∈ l, x ≤ M := by
  cases l with
  | nil => exact absurd rfl hne
  | cons y ys =>
    have h := foldl_max_spec ys y
    refine ⟨ys.foldl max y, rfl, ?_, ?_⟩
    · rcases h.1 with he | hm
      · rw [he]; simp
      · simp [hm]
    · intro x hx
      rcases List.mem_cons.1 hx with rfl | h2
      · exact h.2.1
      · exact h.2.2 x h2

theorem mem_dedupFold (l : List Nat) : ∀ (acc : List Nat) (x : Nat),
    (x ∈ l.foldl (fun acc y => if y ∈ acc then acc else acc ++ [y]) acc ↔
      x ∈ acc ∨ x ∈ l) := by
  induction l with
  | nil => simp
  | cons y ys ih =>
    intro acc x
    rw [List.foldl_cons]
    by_cases hy : y ∈ acc
    · rw [if_pos hy, ih]
      constructor
      · rintro (h | h)
        · exact Or.inl h
        · exact Or.inr (by simp [h])
      · rintro (h | h)
        · exact Or.inl h
        · rcases List.mem_cons.1 h with rfl | h2
          · exact Or.inl hy
          · exact Or.inr h2
    · rw [if_neg hy, ih]
      simp [List.mem_append, or_assoc]

theorem mem_hourKeys (rows : List WeatherRow) (h : Nat) :
    h ∈ hourKeys rows ↔ ∃ r ∈ rows, floorHour r.timestamp = h := by
  rw [hourKeys, List.mem_insertionSort, mem_dedupFold]
  simp [List.mem_map, eq_comm]

theorem variance_keys_eq (rows : List WeatherRow) :
    (variance_data rows).map (fun e => e.1) = hourKeys rows := by
  rw [variance_data, List.map_map]
  exact List.map_id _

theorem variance_mem_inv (rows : List WeatherRow) (h : Nat)
    (mn mx rg : Option ℚ) (hm : (h, mn, mx, rg) ∈ variance_data rows) :
    mn = qMin (bucketTemps rows h) ∧ mx = qMax (bucketTemps rows h) ∧
    rg = (match qMax (bucketTemps rows h), qMin (bucketTemps rows h) with
      | some M, some m => some (M - m)
      | _, _ => none) := by
  rw [variance_data, List.mem_map] at hm
  obtain ⟨k, _, he⟩ := hm
  cases he
  exact ⟨rfl, rfl, rfl⟩

/-- Four locations all reporting 60°F within hour bucket 3600. -/
def rows60 : List WeatherRow :=
  [mkRow "Downtown Ithaca" 3700 1 (some 60), mkRow "Cornell Campus" 3710 2 (some 60),
   mkRow "Ithaca College" 3720 3 (some 60), mkRow "Cayuga Lake" 3730 4 (some 60)]

/-- The same four rows, with one location reporting 70°F instead. -/
def rows70 : List WeatherRow :=
  [mkRow "Downtown Ithaca" 3700 1 (some 70), mkRow "Cornell Campus" 3710 2 (some 60),
   mkRow "Ithaca College" 3720 3 (some 60), mkRow "Cayuga Lake" 3730 4 (some 60)]

/-- C4: the variance table buckets observations by floor-truncating the
timestamp to the hour, pooling ALL locations jointly in each bucket (a
bucket's temperatures are those of every row whose floored hour matches,
regardless of location), and reports `range = max - min` over the pooled
bucket; in particular 4 locations all reporting 60°F give range 0.0 for
their bucket, and one of them reporting 70°F instead gives range 10.0. -/
theorem C4_variance_by_hour :
    (∀ rows h, (h ∈ (variance_data rows).map (fun e => e.1) ↔
       ∃ r ∈ rows, floorHour r.timestamp = h)) ∧
    (∀ rows h mn mx rg, (h, mn, mx, rg) ∈ variance_data rows →
       (bucketTemps rows h = [] ∧ rg = none) ∨
       ∃ m M, mn = some m ∧ mx = some M ∧ rg = some (M - m) ∧
         m ∈ bucketTemps rows h ∧ M ∈ bucketTemps rows h ∧
         ∀ q ∈ bucketTemps rows h, m ≤ q ∧ q ≤ M) ∧
    variance_data rows60 = [(3600, some 60, some 60, some 0)] ∧
    variance_data rows70 = [(3600, some 60, some 70, some 10)] := by
  refine ⟨?_, ?_, ?_, ?_⟩
  case refine_3 =>
    norm_num [variance_data, hourKeys, bucketTemps, mkRow, numTemp, floorHour, qMin, qMax,
      rows60, List.insertionSort, List.orderedInsert, min_def, max_def,
      List.filterMap, List.filter, List.foldl]
  case refine_4 =>
    norm_num [variance_data, hourKeys, bucketTemps, mkRow, numTemp, floorHour, qMin, qMax,
      rows70, List.insertionSort, List.orderedInsert, min_def, max_def,
      List.filterMap, List.filter, List.foldl]
  · intro rows h
    rw [variance_keys_eq, mem_hourKeys]
  · intro rows h mn mx rg hm
    obtain ⟨h1, h2, h3⟩ := variance_mem_inv rows h mn mx rg hm
    by_cases hne : bucketTemps rows h = []
    · refine Or.inl ⟨hne, ?_⟩
      rw [h3, hne]
      rfl
    · obtain ⟨m, hmin, hmm, hml⟩ := qMin_spec _ hne
      obtain ⟨M, hmax, hMm, hMl⟩ := qMax_spec _ hne
      refine Or.inr ⟨m, M, by rw [h1, hmin], by rw [h2, hmax], ?_, hmm, hMm,
        fun q hq => ⟨hml q hq, hMl q hq⟩⟩
      rw [h3, hmin, hmax]

/-- Witness for C4: the all-60°F bucket's entry satisfies the range
characterization. -/
theorem C4_variance_by_hour_witness :
    (bucketTemps rows60 3600 = [] ∧ (some (0 : ℚ)) = none) ∨
    ∃ m M, some (60 : ℚ) = some m ∧ some (60 : ℚ) = some M ∧
      some (0 : ℚ) = some (M - m) ∧
      m ∈ bucketTemps rows60 3600 ∧ M ∈ bucketTemps rows60 3600 ∧
      ∀ q ∈ bucketTemps rows60 3600, m ≤ q ∧ q ≤ M :=
  C4_variance_by_hour.2.1 rows60 3600 (some 60) (some 60) (some 0)
    (by norm_num [variance_data, hourKeys, bucketTemps, mkRow, numTemp, floorHour, qMin, qMax,
      rows60, List.insertionSort, List.orderedInsert, min_def, max_def,
      List.filterMap, List.filter, List.foldl])

theorem latestFold_keys (df : List WeatherRow) : ∀ (acc : List (String × CondCard)) (loc : String),
    ((∃ c, (loc, c) ∈ df.foldl
      (fun acc r =>
        if acc.any (fun p => p.1 == r.location) then acc
        else acc ++ [(r.location, cardOf r)]) acc) ↔
      (∃ c, (loc, c) ∈ acc) ∨ loc ∈ df.map (fun r => r.location)) := by
  induction df with
  | nil => simp
  | cons rr rest ih =>
    intro acc loc
    rw [List.foldl_cons]
    by_cases hany : (acc.any (fun p => p.1 == rr.location)) = true
    · rw [if_pos hany, ih]
      constructor
      · rintro (h | h)
        · exact Or.inl h
        · exact Or.inr (by simp [h])
      · rintro (h | h)
        · exact Or.inl h
        · rcases (by simpa using h : loc = rr.location ∨ loc ∈ rest.map fun r => r.location)
            with rfl | h2
          · simp only [List.any_eq_true] at hany
            obtain ⟨e, he, heq⟩ := hany
            rw [beq_iff_eq] at heq
            exact Or.inl ⟨e.2, by rw [← heq]; exact he⟩
          · exact Or.inr h2
    · rw [if_neg hany, ih]
      constructor
      · rintro (⟨c, hc⟩ | h)
        · rcases List.mem_append.1 hc with h1 | h1
          · exact Or.inl ⟨c, h1⟩
          · simp at h1
            exact Or.inr (by simp [h1.1])
        · exact Or.inr (by simp [h])
      · rintro (⟨c, hc⟩ | h)
        · exact Or.inl ⟨c, List.mem_append_left _ hc⟩
        · rcases (by simpa using h : loc = rr.location ∨ loc ∈ rest.map fun r => r.location)
            with rfl | h2
          · exact Or.inl ⟨cardOf rr, by simp⟩
          · exact Or.inr h2

theorem latestFold_val (df : List WeatherRow) : ∀ (acc : List (String × CondCard))
    (loc : String) (c : CondCard),
    (loc, c) ∈ df.foldl
      (fun acc r =>
        if acc.any (fun p => p.1 == r.location) then acc
        else acc ++ [(r.location, cardOf r)]) acc →
    (loc, c) ∈ acc ∨
    ((∀ e ∈ acc, e.1 ≠ loc) ∧
      ∃ pre r post, df = pre ++ r :: post ∧ r.location = loc ∧ c = cardOf r ∧
        ∀ x ∈ pre, x.location ≠ loc) := by
  induction df with
  | nil =>
    intro acc loc c h
    exact Or.inl (by simpa using h)
  | cons rr rest ih =>
    intro acc loc c h
    rw [List.foldl_cons] at h
    by_cases hany : (acc.any (fun p => p.1 == rr.location)) = true
    · rw [if_pos hany] at h
      rcases ih acc loc c h with hc | ⟨hfree, pre, r, post, hdf, hlocr, hcard, hpre⟩
      · exact Or.inl hc
      · refine Or.inr ⟨hfree, rr :: pre, r, post, by rw [hdf]; rfl, hlocr, hcard, ?_⟩
        intro x hx
        rcases List.mem_cons.1 hx with rfl | h2
        · simp only [List.any_eq_true] at hany
          obtain ⟨e, he, heq⟩ := hany
          rw [beq_iff_eq] at heq
          intro hcon
          exact hfree e he (by rw [heq, hcon])
        · exact hpre x h2
    · rw [if_neg hany] at h
      rcases ih (acc ++ [(rr.location, cardOf rr)]) loc c h with
        hc | ⟨hfree, pre, r, post, hdf, hlocr, hcard, hpre⟩
      · rcases List.mem_append.1 hc with h1 | h1
        · exact Or.inl h1
        · simp only [List.mem_singleton, Prod.mk.injEq] at h1
          refine Or.inr ⟨?_, [], rr, rest, rfl, h1.1.symm, h1.2, by simp⟩
          intro e he hcon
          exact hany (List.any_eq_true.2 ⟨e, he, beq_iff_eq.2 (by rw [hcon, h1.1])⟩)
      · refine Or.inr ⟨fun e he => hfree e (List.mem_append_left _ he),
          rr :: pre, r, post, by rw [hdf]; rfl, hlocr, hcard, ?_⟩
        intro x hx
        rcases List.mem_cons.1 hx with heq | h2
        · subst heq
          exact fun hcon => hfree (x.location, cardOf x) (by simp) hcon
        · exact hpre x h2

/-- C1 (amended): whenever the one-hour window holds at least one row,
`get_latest_conditions` maps exactly the locations having a row in the
window (keys are the locations appearing in the queried frame), each to
the card of one of its rows of maximal timestamp within the window —
never a row older than the window; but when the window is empty the
function does not return an empty mapping: it fabricates the fixed
4-entry demo data (see the counterexample). -/
theorem C1_latest_per_location (s : Store) (now : Nat) (df : List WeatherRow)
    (hq : queryResult s (now - 3600) df) (hne : df ≠ []) :
    (∀ loc, ((∃ c, (loc, c) ∈ get_latest_conditions_from now df) ↔
      ∃ r ∈ s, r.location = loc ∧ now - 3600 < r.timestamp)) ∧
    (∀ loc c, (loc, c) ∈ get_latest_conditions_from now df →
      ∃ r ∈ s, r.location = loc ∧ now - 3600 < r.timestamp ∧ c = cardOf r ∧
        ∀ r' ∈ s, r'.location = loc → now - 3600 < r'.timestamp →
          r'.timestamp ≤ r.timestamp) := by
  have hdf : get_latest_conditions_from now df = latestFold df := by
    rw [get_latest_conditions_from, if_neg (by simpa [List.isEmpty_iff] using hne)]
  have hmem : ∀ r : WeatherRow, r ∈ df ↔ r ∈ s ∧ now - 3600 < r.timestamp := by
    intro r
    rw [hq.1.mem_iff, List.mem_filter]
    simp
  constructor
  · intro loc
    rw [hdf, latestFold, latestFold_keys df [] loc]
    simp only [List.not_mem_nil, exists_false, false_or, List.mem_map]
    constructor
    · rintro ⟨r, hr, hrl⟩
      exact ⟨r, ((hmem r).1 hr).1, hrl, ((hmem r).1 hr).2⟩
    · rintro ⟨r, hrs, hrl, hrt⟩
      exact ⟨r, (hmem r).2 ⟨hrs, hrt⟩, hrl⟩
  · intro loc c hcmem
    rw [hdf, latestFold] at hcmem
    rcases latestFold_val df [] loc c hcmem with h0 | ⟨_, pre, r, post, hdfeq, hlocr, hcard, hpre⟩
    · simp at h0
    · have hrdf : r ∈ df := by rw [hdfeq]; simp
      have hrs := (hmem r).1 hrdf
      refine ⟨r, hrs.1, hlocr, hrs.2, hcard, ?_⟩
      intro r' hr's hloc' hts'
      have hr'df : r' ∈ df := (hmem r').2 ⟨hr's, hts'⟩
      rw [hdfeq] at hr'df
      rcases List.mem_append.1 hr'df with hp | hp
      · exact absurd hloc' (hpre r' hp)
      · rcases List.mem_cons.1 hp with heq | hpost
        · rw [heq]
        · have hs2 : List.Pairwise tsDesc (pre ++ r :: post) := by
            have := hq.2
            rw [hdfeq] at this
            exact this
          have hpost2 := (List.pairwise_append.1 hs2).2.1
          exact (List.pairwise_cons.1 hpost2).1 r' hpost

/-- C1 counterexample: on an empty store the only result the one-hour
window query admits is the empty frame, and on it
`get_latest_conditions` does not return an empty (or absent-key)
mapping — it returns the fixed 4-entry fabricated demo data
(src/dashboard.py:68-87), so locations with no Observation in the
window are present in the result with invented values. -/
theorem C1_demo_fallback_counterexample :
    queryResult ([] : Store) (10000 - 3600) [] ∧
    get_latest_conditions_from 10000 [] = demoConditions 10000 ∧
    (get_latest_conditions_from 10000 []).length = 4 :=
  ⟨⟨List.Perm.nil, List.sorted_nil⟩, rfl, rfl⟩

/-- A store holding a single in-window row. -/
def storeWin : Store := [mkRow "Downtown Ithaca" 9000 1 (some 60)]

/-- Witness for C1 on a one-row in-window store. -/
theorem C1_latest_per_location_witness :
    (∀ loc, ((∃ c, (loc, c) ∈ get_latest_conditions_from 10000 storeWin) ↔
      ∃ r ∈ storeWin, r.location = loc ∧ 10000 - 3600 < r.timestamp)) ∧
    (∀ loc c, (loc, c) ∈ get_latest_conditions_from 10000 storeWin →
      ∃ r ∈ storeWin, r.location = loc ∧ 10000 - 3600 < r.timestamp ∧ c = cardOf r ∧
        ∀ r' ∈ storeWin, r'.location = loc → 10000 - 3600 < r'.timestamp →
          r'.timestamp ≤ r.timestamp) :=
  C1_latest_per_location storeWin 10000 storeWin
    ⟨List.Perm.refl _, List.sorted_singleton _⟩ (List.cons_ne_nil _ _)
